import Mathlib

/-!
Shallow embedding of the match-execution and annotation engine of
`generate.py` (method `RegexLearningGenerator.test_pattern`).  Text is
modelled as `List Char`; Python string slicing `line[a:b]` becomes
`(line.drop a).take (b - a)`; the HTML fragments built by f-string
concatenation become list concatenation.  The regular-expression engine
itself (the `re` module) is an external collaborator: a compiled pattern
is modelled abstractly as a record of a line scanner and a whole-text
scanner, each of which may fail (Python exceptions become `Except`).
-/

namespace RegexGen

/-- Text is a list of characters. -/
abbrev Str := List Char

/-- The ASCII whitespace characters stripped by the Python `str.strip`
family (space, tab, newline, carriage return, vertical tab, form feed). -/
def isPyWs (c : Char) : Bool :=
  c = ' ' || c = '\t' || c = '\n' || c = '\r' || c = Char.ofNat 11 || c = Char.ofNat 12

/-- Python `str.rstrip()` with no arguments: remove trailing whitespace. -/
def pyRstrip (s : Str) : Str :=
  (s.reverse.dropWhile isPyWs).reverse

/-- Python `str.strip()` with no arguments: remove leading and trailing
whitespace (this is what line 51 of `generate.py` calls on the test input). -/
def pyStrip (s : Str) : Str :=
  pyRstrip (s.dropWhile isPyWs)

/-- Python `str.split` on a single newline character: `"".split` gives one
empty piece, and every newline separates two (possibly empty) pieces, so
internal blank lines are preserved. -/
def splitOnNl : Str → List Str
  | [] => [[]]
  | c :: rest =>
    if c = '\n' then [] :: splitOnNl rest
    else
      match splitOnNl rest with
      | [] => [[c]]
      | h :: t => (c :: h) :: t

/-- The line sequence scanned per line by `test_pattern`
(line 51 of `generate.py`): `test_input.strip().split(chr 10)`. -/
def reportLines (text : Str) : List Str :=
  splitOnNl (pyStrip text)

/-- `html.escape` on one character (with `quote=True`, the default):
ampersand, angle brackets, double quote and single quote become entities. -/
def escapeChar (c : Char) : Str :=
  if c = '&' then ('&' :: 'a' :: 'm' :: 'p' :: [';'])
  else if c = '<' then ('&' :: 'l' :: 't' :: [';'])
  else if c = '>' then ('&' :: 'g' :: 't' :: [';'])
  else if c = '"' then ('&' :: 'q' :: 'u' :: 'o' :: 't' :: [';'])
  else if c = Char.ofNat 39 then ('&' :: '#' :: 'x' :: '2' :: '7' :: [';'])
  else [c]

/-- Python `html.escape`, character by character. -/
def htmlEscape : Str → Str
  | [] => []
  | c :: rest => escapeChar c ++ htmlEscape rest

/-- Decimal rendering of a line or match number, as a Python f-string does. -/
def natStr (n : Nat) : Str :=
  Nat.toDigits 10 n

/-- Python `sep.join(items)`. -/
def joinSep (sep : Str) : List Str → Str
  | [] => []
  | [x] => x
  | x :: y :: xs => x ++ sep ++ joinSep sep (y :: xs)

/-- Python slicing `l[a:b]` for nonnegative bounds. -/
def slice (l : Str) (a b : Nat) : Str :=
  (l.drop a).take (b - a)

/-- The opening highlight marker emitted at line 67 of `generate.py`. -/
def spanOpen : Str :=
  ("<span style=\"background-color: #a5d6a7; font-weight: bold; border-radius: 3px; padding: 0 2px;\">").data

/-- The closing highlight marker emitted at line 67 of `generate.py`. -/
def spanClose : Str :=
  ("</span>").data

/-- The highlighted-line loop of `test_pattern` (lines 59 to 71 of
`generate.py`), abstracted over the two marker strings: escaped text from
`lastIdx` to the start of the next span, the escaped matched slice wrapped
in the markers, and finally the escaped remainder of the line. -/
def highlightWith (op cl : Str) (line : Str) : List (Nat × Nat) → Nat → Str
  | [], lastIdx => htmlEscape (line.drop lastIdx)
  | (s, e) :: rest, lastIdx =>
    htmlEscape (slice line lastIdx s) ++ op ++ htmlEscape (slice line s e) ++ cl ++
      highlightWith op cl line rest e

/-- The highlighted line exactly as the code builds it, markers included. -/
def highlightedLine (line : Str) (spans : List (Nat × Nat)) : Str :=
  highlightWith spanOpen spanClose line spans 0

/-- Spans are chained from position `k`: each span starts at or after the
previous end and is well formed (`start ≤ end`). -/
def SpanChain : Nat → List (Nat × Nat) → Prop
  | _, [] => True
  | k, (s, e) :: rest => k ≤ s ∧ s ≤ e ∧ SpanChain e rest

instance spanChainDec : (k : Nat) → (l : List (Nat × Nat)) → Decidable (SpanChain k l)
  | _, [] => isTrue trivial
  | k, (s, e) :: rest =>
    have : Decidable (SpanChain e rest) := spanChainDec e rest
    inferInstanceAs (Decidable (k ≤ s ∧ s ≤ e ∧ SpanChain e rest))

/-- One match as the annotation code consumes it: its span within the line,
the full matched text `group(0)`, the numbered groups (`None` becomes
`Option.none`), and the named-group dictionary in definition order. -/
structure Match where
  start : Nat
  stop : Nat
  group0 : Str
  groups : List (Option Str)
  groupdict : List (Str × Option Str)
deriving DecidableEq, Repr

/-- Line 87 and line 96 of `generate.py`: an absent group is replaced by
the literal text `None` before escaping. -/
def groupVal (g : Option Str) : Str :=
  match g with
  | some s => s
  | none => ('N' :: 'o' :: 'n' :: ['e'])

/-- One numbered-group item, line 88 of `generate.py`. -/
def groupItem (j : Nat) (g : Option Str) : Str :=
  natStr j ++ (": \"").data ++ htmlEscape (groupVal g) ++ ("\"").data

/-- One named-group item, line 97 of `generate.py` (the name is embedded
unescaped, only the value is escaped, exactly as the code does). -/
def namedItem (name : Str) (v : Option Str) : Str :=
  name ++ (": \"").data ++ htmlEscape (groupVal v) ++ ("\"").data

/-- Numbered-group items with 1-based numbering (`enumerate(..., 1)`). -/
def groupItems : Nat → List (Option Str) → List Str
  | _, [] => []
  | j, g :: gs => groupItem j g :: groupItems (j + 1) gs

/-- The detail block for one match (lines 79 to 100 of `generate.py`). -/
def matchDetail (k : Nat) (m : Match) : Str :=
  ("<div style=\"margin-top: 4px; margin-left: 10px; font-size: 0.9em; border-left: 2px solid #888; padding-left: 8px;\">").data ++
    ("<strong>Match ").data ++ natStr k ++ (":</strong> \"").data ++
    htmlEscape m.group0 ++ ("\"").data ++
    (if m.groups.isEmpty then []
     else ("<br><strong>Groups:</strong> ").data ++ joinSep (", ").data (groupItems 1 m.groups)) ++
    (if m.groupdict.isEmpty then []
     else ("<br><strong>Named:</strong> ").data ++
       joinSep (", ").data (m.groupdict.map (fun p => namedItem p.1 p.2))) ++
    ("</div>").data

/-- The detail blocks for all matches, numbered from `k`. -/
def matchDetails : Nat → List Match → Str
  | _, [] => []
  | k, m :: ms => matchDetail k m ++ matchDetails (k + 1) ms

/-- The report block for one line (lines 57 to 106 of `generate.py`):
either a match-result block with the highlighted line and per-match
details, or a no-match block with the escaped line. -/
def lineBlock (i : Nat) (line : Str) (ms : List Match) : Str :=
  if ms.isEmpty then
    ("<div class=\"no-match\">").data ++ ("<strong>Line ").data ++ natStr i ++
      (":</strong> \"").data ++ htmlEscape line ++ ("\" - No match").data ++ ("</div>").data
  else
    ("<div class=\"match-result\">").data ++ ("<strong>Line ").data ++ natStr i ++
      (":</strong> \"").data ++
      highlightedLine line (ms.map (fun m => (m.start, m.stop))) ++ ("\"<br>").data ++
      matchDetails 1 ms ++ ("</div>").data

/-- The two result shapes `re.findall` can return (line 109 of
`generate.py`): a list of plain strings, or a list of tuples of group
values.  Which shape occurs is decided by the number of capturing groups,
see `pyFindall`. -/
inductive FindallResult where
  | strs (l : List Str)
  | tuples (l : List (List Str))
deriving DecidableEq, Repr

/-- The number of results; also Python truthiness of the list
(`if all_matches:` is `count ≠ 0`). -/
def FindallResult.count : FindallResult → Nat
  | .strs l => l.length
  | .tuples l => l.length

/-- Whether the findall result is a list of tuples. -/
def FindallResult.isTuples : FindallResult → Bool
  | .strs _ => false
  | .tuples _ => true

/-- One character inside a Python `repr` of a string quoted with `q`:
backslash and the quote character are escaped, as are newline, tab and
carriage return.  (The `hx` escapes of other non-printable characters are
not modelled; no text in this development contains them.) -/
def reprCharIn (q : Char) (c : Char) : Str :=
  if c = '\\' then ('\\' :: ['\\'])
  else if c = q then ('\\' :: [q])
  else if c = '\n' then ('\\' :: ['n'])
  else if c = '\t' then ('\\' :: ['t'])
  else if c = '\r' then ('\\' :: ['r'])
  else [c]

/-- Python `repr` of a string: single quotes, unless the string contains a
single quote and no double quote, in which case double quotes. -/
def reprStr (s : Str) : Str :=
  let q := if s.contains (Char.ofNat 39) && !(s.contains '"') then '"' else Char.ofNat 39
  [q] ++ s.flatMap (reprCharIn q) ++ [q]

/-- Python `repr` of a tuple of strings (a one-element tuple carries a
trailing comma). -/
def reprTuple (t : List Str) : Str :=
  match t with
  | [x] => ("(").data ++ reprStr x ++ (",)").data
  | _ => ("(").data ++ joinSep (", ").data (t.map reprStr) ++ (")").data

/-- Python `str(all_matches)` as used at lines 113 and 114 of
`generate.py`: the list rendering with `repr` of each element. -/
def pyStr : FindallResult → Str
  | .strs l => ("[").data ++ joinSep (", ").data (l.map reprStr) ++ ("]").data
  | .tuples l => ("[").data ++ joinSep (", ").data (l.map reprTuple) ++ ("]").data

/-- The aggregate block data of lines 110 to 116 of `generate.py`:
the count, the escaped preview `html.escape(str(all_matches)[:200])`, and
whether the trailing ellipsis is appended (`len(str(all_matches)) > 200`). -/
structure AggBlock where
  count : Nat
  preview : Str
  ellipsis : Bool
deriving DecidableEq, Repr

/-- Lines 110 to 116 of `generate.py`: no block at all when the findall
result is empty, otherwise count, truncated escaped preview, and the
ellipsis flag. -/
def aggBlock (res : FindallResult) : Option AggBlock :=
  if res.count = 0 then none
  else some { count := res.count,
              preview := htmlEscape ((pyStr res).take 200),
              ellipsis := decide (200 < (pyStr res).length) }

/-- Rendering of the aggregate block (lines 111 to 116 of `generate.py`). -/
def renderAgg (a : AggBlock) : Str :=
  ("<div class=\"group-info\">").data ++ ("<strong>All matches found:</strong> ").data ++
    natStr a.count ++ ("<br>Matches: ").data ++ a.preview ++
    (if a.ellipsis then ("...").data else []) ++ ("</div>").data

/-- A compiled pattern, modelled abstractly: the external matching
capability offers a per-line scan (`finditer`, line 55) and a whole-text
scan (`findall`, line 109).  Either scan may raise, which the embedding
renders as `Except.error` with the exception text. -/
structure Pattern where
  finditer : Str → Except Str (List Match)
  findall : Str → Except Str FindallResult

/-- The per-line loop of `test_pattern` (lines 53 to 106 of
`generate.py`): scan each line in order with 1-based numbering, collecting
the rendered line blocks; the first exception stops the loop and is
returned alongside whatever blocks were already built (the caller then
discards them, as the Python `except` clause rebinds `results_html`). -/
def scanLines (p : Pattern) : Nat → List Str → List Str × Option Str
  | _, [] => ([], none)
  | i, l :: rest =>
    match p.finditer l with
    | .error msg => ([], some msg)
    | .ok ms =>
      let b := lineBlock i l ms
      match scanLines p (i + 1) rest with
      | (bs, err) => (b :: bs, err)

/-- The two error kinds of the report (lines 118 to 121 of `generate.py`):
`re.error` from compilation, and any other exception during scanning. -/
inductive ErrKind where
  | patternSyntaxError
  | executionError
deriving DecidableEq, Repr

/-- The outcome of `test_pattern`'s result building: either the line
blocks with the optional aggregate block, or a single error report that
carries nothing else. -/
inductive Outcome where
  | report (lineBlocks : List Str) (agg : Option AggBlock)
  | errorReport (kind : ErrKind) (msg : Str)
deriving DecidableEq, Repr

/-- The result-building portion of `test_pattern` (lines 43 to 121 of
`generate.py`): compile the pattern; on `re.error` return the regex-error
block.  Otherwise strip and split the test input, scan each line, run
`findall` over the raw test input, and return the blocks plus the
aggregate.  Any exception raised while scanning replaces all partial
output with a single execution-error block. -/
def buildReport (compile : Str → Except Str Pattern) (patSrc text : Str) : Outcome :=
  match compile patSrc with
  | .error msg => .errorReport .patternSyntaxError msg
  | .ok p =>
    match scanLines p 1 (reportLines text) with
    | (_, some msg) => .errorReport .executionError msg
    | (blocks, none) =>
      match p.findall text with
      | .error msg => .errorReport .executionError msg
      | .ok res => .report blocks (aggBlock res)

/-- The aggregate component of an outcome, when one is present. -/
def aggOf : Outcome → Option AggBlock
  | .report _ agg => agg
  | .errorReport _ _ => none

/-- The flat `results_html` string `test_pattern` returns: the
concatenation of the line blocks and the rendered aggregate block, or an
error block alone (lines 119 and 121 of `generate.py`). -/
def renderOutcome : Outcome → Str
  | .report blocks agg =>
    blocks.foldr (· ++ ·) [] ++
      (match agg with
       | some a => renderAgg a
       | none => [])
  | .errorReport .patternSyntaxError msg =>
    ("<div class=\"no-match\"><strong>Regex Error:</strong> ").data ++ htmlEscape msg ++
      ("</div>").data
  | .errorReport .executionError msg =>
    ("<div class=\"no-match\"><strong>Error:</strong> ").data ++ htmlEscape msg ++
      ("</div>").data

/-- Modelled from the spec: the non-overlapping left-to-right scan of the
external matching capability (`re.finditer`), which is not part of this
repository's sources.  `search pos` stands for the leftmost match whose
start is at or after `pos`; after each match the scan resumes at its end,
advancing one extra position past a zero-width match.  The fuel argument
bounds the number of matches. -/
def pyFinditerAux (search : Nat → Option (Nat × Nat)) : Nat → Nat → List (Nat × Nat)
  | 0, _ => []
  | fuel + 1, pos =>
    match search pos with
    | none => []
    | some (s, e) => (s, e) :: pyFinditerAux search fuel (if e = s then e + 1 else e)

/-- Modelled from the spec: all spans `re.finditer` yields on a line of
length `len`. -/
def pyFinditer (search : Nat → Option (Nat × Nat)) (len : Nat) : List (Nat × Nat) :=
  pyFinditerAux search (len + 1) 0

/-- Modelled from the spec: the shape of the `re.findall` result for a
pattern with `nGroups` capturing groups over the given matches.  With no
groups it is the list of full match texts; with exactly one group it is
the list of that group's values (an absent group yields the empty
string); with two or more groups it is the list of group-value tuples. -/
def pyFindall (nGroups : Nat) (ms : List Match) : FindallResult :=
  if nGroups = 0 then .strs (ms.map Match.group0)
  else if nGroups = 1 then .strs (ms.map (fun m => (m.groups.headD none).getD []))
  else .tuples (ms.map (fun m => m.groups.map (fun g => g.getD [])))

/-- Modelled from the claim wording of C4 (for comparison only): the line
sequence obtained by trimming trailing whitespace only and splitting. -/
def claimedLines (text : Str) : List Str :=
  splitOnNl (pyRstrip text)

/-- Modelled from the claim wording of C5 (for comparison only): the
aggregate block computed from a findall pass over the trimmed text. -/
def claimedAggTrimmed (compile : Str → Except Str Pattern) (patSrc text : Str) :
    Option AggBlock :=
  match compile patSrc with
  | .error _ => none
  | .ok p =>
    match p.findall (pyStrip text) with
    | .error _ => none
    | .ok res => aggBlock res

/-- A pattern that matches nothing anywhere and never fails. -/
def pNone : Pattern where
  finditer := fun _ => .ok []
  findall := fun _ => .ok (.strs [])

/-- A compile function that always fails with the message `bad`. -/
def compileBad : Str → Except Str Pattern :=
  fun _ => .error (("bad").data)

/-- All matches of the single character `c` in a line, with their spans,
starting from offset `i`. -/
def charMatchesFrom (c : Char) : Nat → Str → List Match
  | _, [] => []
  | i, x :: rest =>
    if x = c then ⟨i, i + 1, [c], [], []⟩ :: charMatchesFrom c (i + 1) rest
    else charMatchesFrom c (i + 1) rest

/-- A concrete model pattern behaving like the regular expression made of
the single literal character `c` (no capturing groups): `finditer` yields
one match per occurrence, `findall` the list of matched substrings. -/
def charPattern (c : Char) : Pattern where
  finditer := fun l => .ok (charMatchesFrom c 0 l)
  findall := fun t => .ok (.strs ((t.filter (fun x => x = c)).map (fun x => [x])))

/-- Compilation succeeding with `charPattern c`. -/
def compileChar (c : Char) : Str → Except Str Pattern :=
  fun _ => .ok (charPattern c)

/-- A search function for `pyFinditer` that matches one character wide at
every position. -/
def searchStep : Nat → Option (Nat × Nat) :=
  fun pos => some (pos, pos + 1)

theorem htmlEscape_append (a b : Str) :
    htmlEscape (a ++ b) = htmlEscape a ++ htmlEscape b := by
  induction a with
  | nil => simp [htmlEscape]
  | cons c rest ih => simp [htmlEscape, ih]

theorem slice_append_drop (l : Str) {a b : Nat} (h : a ≤ b) :
    slice l a b ++ l.drop b = l.drop a := by
  have hd : l.drop b = (l.drop a).drop (b - a) := by
    rw [List.drop_drop]
    congr 1
    omega
  rw [slice, hd, List.take_append_drop]

theorem highlight_strip (line : Str) (spans : List (Nat × Nat)) :
    ∀ k, SpanChain k spans → highlightWith [] [] line spans k = htmlEscape (line.drop k) := by
  induction spans with
  | nil => intro k _; rfl
  | cons se rest ih =>
    obtain ⟨s, e⟩ := se
    intro k h
    obtain ⟨h1, h2, h3⟩ := h
    simp only [highlightWith, ih e h3, List.append_nil, List.nil_append]
    rw [← htmlEscape_append, ← htmlEscape_append, List.append_assoc,
      slice_append_drop line h2, slice_append_drop line h1]

theorem spanChain_mono {a b : Nat} (h : a ≤ b) :
    ∀ {l : List (Nat × Nat)}, SpanChain b l → SpanChain a l
  | [], _ => trivial
  | (_, _) :: _, ⟨h1, h2, h3⟩ => ⟨Nat.le_trans h h1, h2, h3⟩

theorem spanChain_start_le : ∀ {k : Nat} {l : List (Nat × Nat)},
    SpanChain k l → ∀ y ∈ l, k ≤ y.1
  | _, [], _, y, hy => absurd hy (List.not_mem_nil y)
  | _, (_, _) :: _, ⟨h1, h2, h3⟩, y, hy => by
    cases hy with
    | head => exact h1
    | tail _ hy => exact Nat.le_trans (Nat.le_trans h1 h2) (spanChain_start_le h3 y hy)

theorem spanChain_pairwise : ∀ {k : Nat} {l : List (Nat × Nat)}, SpanChain k l →
    l.Pairwise (fun x y => x.2 ≤ y.1 ∧ x.1 ≤ y.1)
  | _, [], _ => List.Pairwise.nil
  | _, (_, _) :: _, ⟨_, h2, h3⟩ =>
    List.Pairwise.cons
      (fun y hy => ⟨spanChain_start_le h3 y hy,
        Nat.le_trans h2 (spanChain_start_le h3 y hy)⟩)
      (spanChain_pairwise h3)

theorem pyFinditerAux_chain (search : Nat → Option (Nat × Nat))
    (hs : ∀ pos s e, search pos = some (s, e) → pos ≤ s ∧ s ≤ e) :
    ∀ (fuel pos : Nat), SpanChain pos (pyFinditerAux search fuel pos)
  | 0, _ => trivial
  | fuel + 1, pos => by
    cases hsearch : search pos with
    | none => simp only [pyFinditerAux, hsearch]; trivial
    | some se =>
      obtain ⟨s, e⟩ := se
      obtain ⟨hps, hse⟩ := hs pos s e hsearch
      simp only [pyFinditerAux, hsearch]
      exact ⟨hps, hse,
        spanChain_mono (by split <;> omega) (pyFinditerAux_chain search hs fuel _)⟩

/-- C2: for a line and a chained (start-sorted, pairwise non-overlapping,
well-formed) span sequence, the highlighted line is the
`highlightWith spanOpen spanClose` interleaving of escaped gap text and
escaped matched slices, and with the two markers removed (replaced by the
empty string) that interleaving is exactly the HTML-escaped original
line. -/
theorem c2_highlight_coverage (line : Str) (spans : List (Nat × Nat))
    (h : SpanChain 0 spans) :
    highlightedLine line spans = highlightWith spanOpen spanClose line spans 0 ∧
      highlightWith [] [] line spans 0 = htmlEscape line := by
  refine ⟨rfl, ?_⟩
  have := highlight_strip line spans 0 h
  simpa using this

theorem c2_highlight_coverage_witness :
    SpanChain 0 [(4, 7)] ∧
      (highlightedLine (("abc 123 def").data) [(4, 7)] =
          highlightWith spanOpen spanClose (("abc 123 def").data) [(4, 7)] 0 ∧
        highlightWith [] [] (("abc 123 def").data) [(4, 7)] 0 =
          htmlEscape (("abc 123 def").data)) :=
  ⟨by decide, c2_highlight_coverage (("abc 123 def").data) [(4, 7)] (by decide)⟩

/-- C3: if the underlying search always yields a well-formed match
starting at or after the requested position, then the span sequence the
per-line scan model `pyFinditer` produces is chained from 0 — pairwise
non-overlapping, sorted by start, each match beginning at or after the
previous end. -/
theorem c3_scanline_nonoverlap (search : Nat → Option (Nat × Nat)) (len : Nat)
    (hs : ∀ pos s e, search pos = some (s, e) → pos ≤ s ∧ s ≤ e) :
    SpanChain 0 (pyFinditer search len) ∧
      (pyFinditer search len).Pairwise (fun x y => x.2 ≤ y.1 ∧ x.1 ≤ y.1) := by
  have hchain : SpanChain 0 (pyFinditer search len) :=
    pyFinditerAux_chain search hs (len + 1) 0
  exact ⟨hchain, spanChain_pairwise hchain⟩

theorem c3_scanline_nonoverlap_witness :
    pyFinditer searchStep 2 = [(0, 1), (1, 2), (2, 3)] ∧
      (SpanChain 0 (pyFinditer searchStep 2) ∧
        (pyFinditer searchStep 2).Pairwise (fun x y => x.2 ≤ y.1 ∧ x.1 ≤ y.1)) :=
  ⟨by decide,
    c3_scanline_nonoverlap searchStep 2 (fun pos s e h => by
      simp only [searchStep, Option.some.injEq, Prod.mk.injEq] at h
      omega)⟩

theorem groupItem_length (j : Nat) (g : Option Str) :
    (groupItem j g).length = (natStr j).length + 3 + (htmlEscape (groupVal g)).length + 1 := by
  simp [groupItem]
  omega

theorem namedItem_length (name : Str) (v : Option Str) :
    (namedItem name v).length = name.length + 3 + (htmlEscape (groupVal v)).length + 1 := by
  simp [namedItem]
  omega

/-- C8: in the rendered group and named-group lists, an absent group
(value `Option.none`) embeds the four characters `None`, never the empty
string, while an empty-string capture embeds the empty string, never
`None`; the two rendered items always differ. -/
theorem c8_absent_vs_empty_capture (j : Nat) (name : Str) :
    groupVal none = (("None").data) ∧ groupVal none ≠ [] ∧
      groupVal (some []) = [] ∧ groupVal (some []) ≠ (("None").data) ∧
      groupItem j none ≠ groupItem j (some []) ∧
      namedItem name none ≠ namedItem name (some []) := by
  refine ⟨rfl, by decide, rfl, by decide, ?_, ?_⟩
  · intro h
    have hl := congrArg List.length h
    rw [groupItem_length, groupItem_length] at hl
    have h4 : (htmlEscape (groupVal (none : Option Str))).length = 4 := rfl
    have h0 : (htmlEscape (groupVal (some ([] : Str)))).length = 0 := rfl
    omega
  · intro h
    have hl := congrArg List.length h
    rw [namedItem_length, namedItem_length] at hl
    have h4 : (htmlEscape (groupVal (none : Option Str))).length = 4 := rfl
    have h0 : (htmlEscape (groupVal (some ([] : Str)))).length = 0 := rfl
    omega

theorem c8_absent_vs_empty_capture_witness :
    groupVal none = (("None").data) ∧ groupVal none ≠ [] ∧
      groupVal (some []) = [] ∧ groupVal (some []) ≠ (("None").data) ∧
      groupItem 1 none ≠ groupItem 1 (some []) ∧
      namedItem (("g").data) none ≠ namedItem (("g").data) (some []) :=
  c8_absent_vs_empty_capture 1 (("g").data)

/-- C10: a group that captured the three-character string `None` renders
character for character identically to an absent group, in both the
numbered and the named group lists, so the report cannot distinguish the
two. -/
theorem c10_none_capture_ambiguous :
    groupItem 1 (some (("None").data)) = groupItem 1 none ∧
      namedItem (("g").data) (some (("None").data)) = namedItem (("g").data) none :=
  ⟨rfl, rfl⟩

/-- C1: the result building of `test_pattern` is total and
error-exclusive.  It always returns either a report or an error outcome; a
compilation failure yields a `patternSyntaxError` outcome carrying the
engine message; an exception raised while scanning some line, or by the
whole-text findall, yields an `executionError` outcome — in particular the
line blocks already built before the failing line are discarded, since the
error outcome carries only the message; and an error outcome is never also
a report. -/
theorem c1_report_total_error_exclusive
    (compile : Str → Except Str Pattern) (patSrc text : Str) :
    ((∃ blocks agg, buildReport compile patSrc text = .report blocks agg) ∨
      (∃ kind msg, buildReport compile patSrc text = .errorReport kind msg)) ∧
    (∀ msg, compile patSrc = .error msg →
      buildReport compile patSrc text = .errorReport .patternSyntaxError msg) ∧
    (∀ p msg, compile patSrc = .ok p →
      (scanLines p 1 (reportLines text)).2 = some msg →
      buildReport compile patSrc text = .errorReport .executionError msg) ∧
    (∀ p msg, compile patSrc = .ok p →
      (scanLines p 1 (reportLines text)).2 = none → p.findall text = .error msg →
      buildReport compile patSrc text = .errorReport .executionError msg) ∧
    (∀ kind msg blocks agg, buildReport compile patSrc text = .errorReport kind msg →
      buildReport compile patSrc text ≠ .report blocks agg) := by
  refine ⟨?_, ?_, ?_, ?_, ?_⟩
  · cases h : buildReport compile patSrc text with
    | report b a => exact Or.inl ⟨b, a, rfl⟩
    | errorReport k m => exact Or.inr ⟨k, m, rfl⟩
  · intro msg h
    simp [buildReport, h]
  · intro p msg hp hscan
    rcases hsc : scanLines p 1 (reportLines text) with ⟨bs, err⟩
    rw [hsc] at hscan
    simp only at hscan
    subst hscan
    simp [buildReport, hp, hsc]
  · intro p msg hp hscan hf
    rcases hsc : scanLines p 1 (reportLines text) with ⟨bs, err⟩
    rw [hsc] at hscan
    simp only at hscan
    subst hscan
    simp [buildReport, hp, hsc, hf]
  · intro kind msg blocks agg h
    rw [h]
    simp

theorem c1_report_total_error_exclusive_witness :
    buildReport compileBad (("(").data) (("x").data) =
      .errorReport .patternSyntaxError (("bad").data) :=
  (c1_report_total_error_exclusive compileBad (("(").data) (("x").data)).2.1
    (("bad").data) rfl

theorem splitOnNl_ne_nil : ∀ t : Str, splitOnNl t ≠ []
  | [] => by simp [splitOnNl]
  | c :: rest => by
    simp only [splitOnNl]
    split
    · simp
    · split <;> simp

theorem splitOnNl_length : ∀ t : Str, (splitOnNl t).length = t.count '\n' + 1
  | [] => rfl
  | c :: rest => by
    have ih := splitOnNl_length rest
    by_cases hc : c = '\n'
    · subst hc
      simp [splitOnNl, List.count_cons]
      omega
    · simp only [splitOnNl, if_neg hc]
      cases h : splitOnNl rest with
      | nil => exact absurd h (splitOnNl_ne_nil rest)
      | cons a as =>
        rw [h] at ih
        simp [List.count_cons, hc] at ih ⊢
        omega

theorem pyStrip_decomp (text : Str) :
    ∃ pre suf, (∀ c ∈ pre, isPyWs c) ∧ (∀ c ∈ suf, isPyWs c) ∧
      text = pre ++ pyStrip text ++ suf := by
  refine ⟨text.takeWhile isPyWs,
    ((text.dropWhile isPyWs).reverse.takeWhile isPyWs).reverse, ?_, ?_, ?_⟩
  · intro c hc
    exact List.mem_takeWhile_imp hc
  · intro c hc
    rw [List.mem_reverse] at hc
    exact List.mem_takeWhile_imp hc
  · have h1 : text.takeWhile isPyWs ++ text.dropWhile isPyWs = text :=
      List.takeWhile_append_dropWhile isPyWs text
    have h2 := congrArg List.reverse
      (List.takeWhile_append_dropWhile isPyWs (text.dropWhile isPyWs).reverse)
    rw [List.reverse_append, List.reverse_reverse] at h2
    have h3 : pyStrip text ++ ((text.dropWhile isPyWs).reverse.takeWhile isPyWs).reverse
        = text.dropWhile isPyWs := h2
    calc text = text.takeWhile isPyWs ++ text.dropWhile isPyWs := h1.symm
      _ = text.takeWhile isPyWs ++ (pyStrip text ++
            ((text.dropWhile isPyWs).reverse.takeWhile isPyWs).reverse) := by rw [h3]
      _ = text.takeWhile isPyWs ++ pyStrip text ++
            ((text.dropWhile isPyWs).reverse.takeWhile isPyWs).reverse := by
          rw [List.append_assoc]

/-- C4 counterexample: on the input consisting of a space followed by
the letter a, the code (which calls Python strip, removing leading
whitespace too) produces the single line `a`, while trimming only
trailing whitespace would produce the line starting with the space. -/
theorem c4_lines_counterexample :
    reportLines ((" a").data) = [("a").data] ∧
      claimedLines ((" a").data) = [(" a").data] ∧
      reportLines ((" a").data) ≠ claimedLines ((" a").data) := by decide

/-- C4 amended: the scanned line sequence is obtained by trimming both
leading and trailing whitespace from the whole text and splitting on
newline characters; the removed prefix and suffix consist of whitespace
only; splitting keeps internal blank lines (one line per newline
separator plus one); and the per-line scan numbers lines from the given
index upward, so the first line of a report is line 1. -/
theorem c4_lines_trimmed_both_ends (text : Str) :
    reportLines text = splitOnNl (pyStrip text) ∧
      (∃ pre suf, (∀ c ∈ pre, isPyWs c) ∧ (∀ c ∈ suf, isPyWs c) ∧
        text = pre ++ pyStrip text ++ suf) ∧
      (splitOnNl (pyStrip text)).length = (pyStrip text).count '\n' + 1 ∧
      (∀ (p : Pattern) (i : Nat) (l : Str) (ls : List Str) (ms : List Match),
        p.finditer l = .ok ms →
          scanLines p i (l :: ls) =
            (lineBlock i l ms :: (scanLines p (i + 1) ls).1,
              (scanLines p (i + 1) ls).2)) := by
  refine ⟨rfl, pyStrip_decomp text, splitOnNl_length _, ?_⟩
  intro p i l ls ms h
  simp only [scanLines, h]

theorem c4_lines_trimmed_both_ends_witness :
    scanLines pNone 1 [("x").data] =
      (lineBlock 1 (("x").data) [] :: (scanLines pNone 2 []).1,
        (scanLines pNone 2 []).2) :=
  (c4_lines_trimmed_both_ends (("x").data)).2.2.2 pNone 1 (("x").data) [] [] rfl

theorem aggBlock_eq_none_iff (res : FindallResult) :
    aggBlock res = none ↔ res.count = 0 := by
  rw [aggBlock]
  split <;> simp_all

theorem aggBlock_count (res : FindallResult) (a : AggBlock)
    (h : aggBlock res = some a) : a.count = res.count := by
  rw [aggBlock] at h
  split at h
  · exact absurd h (by simp)
  · simp only [Option.some.injEq] at h
    rw [← h]

/-- C5 counterexample: with a (model) pattern matching a single space and
the test text `a` followed by a space, the code computes the aggregate
over the raw untrimmed input and reports one match, while a findall pass
over the trimmed text (as the claim states) finds nothing and would omit
the block. -/
theorem c5_aggregate_counterexample :
    claimedAggTrimmed (compileChar ' ') ((" ").data) (("a ").data) = none ∧
      (aggOf (buildReport (compileChar ' ') ((" ").data) (("a ").data))).map
        AggBlock.count = some 1 ∧
      aggOf (buildReport (compileChar ' ') ((" ").data) (("a ").data)) ≠
        claimedAggTrimmed (compileChar ' ') ((" ").data) (("a ").data) := by decide

/-- C5 amended: when the report succeeds, its aggregate component is the
aggregate block of a single findall pass over the raw untrimmed input
text; the block is omitted exactly when that pass returns no results, and
otherwise its count is the number of results. -/
theorem c5_aggregate_raw_text (compile : Str → Except Str Pattern)
    (patSrc text : Str) (blocks : List Str) (agg : Option AggBlock)
    (h : buildReport compile patSrc text = .report blocks agg) :
    ∃ p res, compile patSrc = .ok p ∧ p.findall text = .ok res ∧
      agg = aggBlock res ∧ (agg = none ↔ res.count = 0) ∧
      (∀ a, agg = some a → a.count = res.count) := by
  cases hc : compile patSrc with
  | error msg => simp [buildReport, hc] at h
  | ok p =>
    rcases hsc : scanLines p 1 (reportLines text) with ⟨bs, err⟩
    cases err with
    | some m => simp [buildReport, hc, hsc] at h
    | none =>
      cases hf : p.findall text with
      | error m => simp [buildReport, hc, hsc, hf] at h
      | ok res =>
        simp only [buildReport, hc, hsc, Outcome.report.injEq, hf] at h
        refine ⟨p, res, rfl, hf, h.2.symm, ?_, ?_⟩
        · rw [← h.2]
          exact aggBlock_eq_none_iff res
        · intro a ha
          rw [← h.2] at ha
          exact aggBlock_count res a ha

theorem c5_aggregate_raw_text_witness :
    ∃ p res, compileChar 'a' (("a").data) = .ok p ∧
      p.findall (("a").data) = .ok res ∧
      aggBlock (.strs [[('a')]]) = aggBlock res ∧
      (aggBlock (.strs [[('a')]]) = none ↔ res.count = 0) ∧
      (∀ a, aggBlock (.strs [[('a')]]) = some a → a.count = res.count) :=
  c5_aggregate_raw_text (compileChar 'a') (("a").data) (("a").data)
    (scanLines (charPattern 'a') 1 (reportLines (("a").data))).1
    (aggBlock (.strs [[('a')]])) (by rfl)

/-- C6 counterexample: for a pattern with exactly one capturing group,
the findall result is the list of plain group strings, not a list of
tuples, contradicting the claim that any pattern with at least one
capturing group yields tuples. -/
theorem c6_findall_counterexample :
    pyFindall 1 [⟨0, 1, ("a").data, [some (("a").data)], []⟩] =
        .strs [("a").data] ∧
      (pyFindall 1 [⟨0, 1, ("a").data, [some (("a").data)], []⟩]).isTuples = false := by
  decide

/-- C6 amended: the findall result has three shapes, decided by the
number of capturing groups: with none it is the plain matched substrings;
with exactly one it is that group's plain captured values (still not
tuples); with two or more it is the tuples of captured-group values. -/
theorem c6_findall_shapes (ms : List Match) :
    pyFindall 0 ms = .strs (ms.map Match.group0) ∧
      pyFindall 1 ms = .strs (ms.map (fun m => (m.groups.headD none).getD [])) ∧
      (∀ n, pyFindall (n + 2) ms =
        .tuples (ms.map (fun m => m.groups.map (fun g => g.getD [])))) ∧
      (∀ n, (pyFindall (n + 2) ms).isTuples = true) ∧
      (pyFindall 1 ms).isTuples = false ∧ (pyFindall 0 ms).isTuples = false := by
  have hshape : ∀ n, pyFindall (n + 2) ms =
      .tuples (ms.map (fun m => m.groups.map (fun g => g.getD []))) := by
    intro n
    have h0 : ¬(n + 2 = 0) := by omega
    have h1 : ¬(n + 2 = 1) := by omega
    simp [pyFindall, h0, h1]
  refine ⟨rfl, rfl, hshape, ?_, rfl, rfl⟩
  intro n
  rw [hshape n]
  rfl

set_option maxRecDepth 10000 in
/-- C7: for a nonempty findall result the aggregate block is present with
the exact count, the preview is the HTML escape of the first 200
characters of the Python rendering of the result list, and the ellipsis
marker is appended exactly when the untruncated rendering is longer than
200 characters; in particular for the model pattern `a` over a line of
150 `a` characters the count is 150, the rendering is 750 characters
long, and the ellipsis is appended. -/
theorem c7_preview_truncation :
    (∀ res : FindallResult, res.count ≠ 0 →
      aggBlock res = some (AggBlock.mk res.count
        (htmlEscape ((pyStr res).take 200))
        (decide (200 < (pyStr res).length)))) ∧
      (∀ (res : FindallResult) (a : AggBlock), aggBlock res = some a →
        (a.ellipsis = true ↔ 200 < (pyStr res).length)) ∧
      ((charPattern 'a').findall (List.replicate 150 'a') =
        .ok (.strs (List.replicate 150 [('a')]))) ∧
      (pyStr (.strs (List.replicate 150 [('a')]))).length = 750 ∧
      aggBlock (.strs (List.replicate 150 [('a')])) =
        some (AggBlock.mk 150
          (htmlEscape ((pyStr (.strs (List.replicate 150 [('a')]))).take 200))
          true) := by
  refine ⟨?_, ?_, rfl, rfl, rfl⟩
  · intro res h
    rw [aggBlock, if_neg h]
  · intro res a h
    rw [aggBlock] at h
    split at h
    · exact absurd h (by simp)
    · simp only [Option.some.injEq] at h
      rw [← h]
      simp

theorem c7_preview_truncation_witness :
    aggBlock (.strs [[('a')]]) = some (AggBlock.mk (FindallResult.strs [[('a')]]).count
      (htmlEscape ((pyStr (.strs [[('a')]])).take 200))
      (decide (200 < (pyStr (.strs [[('a')]])).length))) :=
  c7_preview_truncation.1 (.strs [[('a')]]) (by decide)

theorem not_mem_escapeChar (c x : Char)
    (hx : x = '<' ∨ x = '>' ∨ x = '"' ∨ x = Char.ofNat 39) : x ∉ escapeChar c := by
  intro h
  rw [escapeChar] at h
  split_ifs at h with h1 h2 h3 h4 h5
  · revert h; rcases hx with rfl | rfl | rfl | rfl <;> decide
  · revert h; rcases hx with rfl | rfl | rfl | rfl <;> decide
  · revert h; rcases hx with rfl | rfl | rfl | rfl <;> decide
  · revert h; rcases hx with rfl | rfl | rfl | rfl <;> decide
  · revert h; rcases hx with rfl | rfl | rfl | rfl <;> decide
  · simp only [List.mem_singleton] at h
    subst h
    rcases hx with rfl | rfl | rfl | rfl <;> simp_all

theorem not_mem_htmlEscape (x : Char)
    (hx : x = '<' ∨ x = '>' ∨ x = '"' ∨ x = Char.ofNat 39) :
    ∀ s : Str, x ∉ htmlEscape s
  | [] => by simp [htmlEscape]
  | c :: rest => by
    simp only [htmlEscape, List.mem_append]
    rintro (h | h)
    · exact not_mem_escapeChar c x hx h
    · exact not_mem_htmlEscape x hx rest h

theorem htmlEscape_plain : ∀ s : Str,
    (∀ c ∈ s, ¬(c = '&' ∨ c = '<' ∨ c = '>' ∨ c = '"' ∨ c = Char.ofNat 39)) →
      htmlEscape s = s
  | [], _ => rfl
  | c :: rest, h => by
    have hc := h c (List.mem_cons_self c rest)
    push_neg at hc
    obtain ⟨hc1, hc2, hc3, hc4, hc5⟩ := hc
    simp only [htmlEscape]
    rw [escapeChar, if_neg hc1, if_neg hc2, if_neg hc3, if_neg hc4, if_neg hc5,
      htmlEscape_plain rest (fun d hd => h d (List.mem_cons_of_mem c hd)),
      List.singleton_append]

/-- C9 counterexample: the complete rendered report for a simple
successful run contains structural markup, so applying the escape
function to it changes it — escaping the final report text is not the
identity, contradicting the idempotence part of the claim. -/
theorem c9_escape_counterexample :
    htmlEscape (renderOutcome (buildReport (compileChar 'z') (("z").data) (("x").data))) ≠
      renderOutcome (buildReport (compileChar 'z') (("z").data) (("x").data)) := by
  decide

/-- C9 amended: escaping is applied exactly once to each embedded value,
and once is enough: the escape output never contains a raw `<`, `>`,
double quote or single quote, so escaped values cannot break the
surrounding markup; but the escape function is not idempotent — it
changes any text containing markup characters or earlier entities (it
leaves exactly the strings with no markup-significant characters
unchanged), so re-escaping the final report, which contains structural
markup, does change it. -/
theorem c9_escape_markup_free :
    (∀ s : Str, ('<') ∉ htmlEscape s ∧ ('>') ∉ htmlEscape s ∧
      ('"') ∉ htmlEscape s ∧ (Char.ofNat 39) ∉ htmlEscape s) ∧
      (∀ s : Str,
        (∀ c ∈ s, ¬(c = '&' ∨ c = '<' ∨ c = '>' ∨ c = '"' ∨ c = Char.ofNat 39)) →
          htmlEscape s = s) :=
  ⟨fun s => ⟨not_mem_htmlEscape _ (Or.inl rfl) s,
    not_mem_htmlEscape _ (Or.inr (Or.inl rfl)) s,
    not_mem_htmlEscape _ (Or.inr (Or.inr (Or.inl rfl))) s,
    not_mem_htmlEscape _ (Or.inr (Or.inr (Or.inr rfl))) s⟩,
   htmlEscape_plain⟩

theorem c9_escape_markup_free_witness :
    htmlEscape (("abc 123").data) = ("abc 123").data :=
  c9_escape_markup_free.2 (("abc 123").data) (by decide)

end RegexGen
